import Mathlib

/-!
Verification of the Alpha-Image-Tool core against its design notes.

The development shallowly embeds the instruction compiler of
`editImageWithGemini` (services/geminiService.ts), the batch orchestration
loop of `EditorView.handleGenerateEdits` (components/EditorView.tsx) and the
compressor run / auto-compress trigger of `CompressorView`
(components/CompressorView.tsx) as pure Lean functions, and proves the
documented properties about them.
-/

/-! ## Edit settings model (services/geminiService.ts type definitions) -/

/-- `ResizeConfig` from services/geminiService.ts. -/
structure ResizeConfig where
  enabled : Bool
  width : Int
  height : Int
  maintainAspectRatio : Bool
deriving DecidableEq

/-- `CropConfig` from services/geminiService.ts; fields are percentages. -/
structure CropConfig where
  enabled : Bool
  x : Int
  y : Int
  width : Int
  height : Int
deriving DecidableEq

/-- `TextOverlayConfig` from services/geminiService.ts. -/
structure TextOverlayConfig where
  enabled : Bool
  content : String
  font : String
  size : Int
  color : String
  positionX : Int
  positionY : Int
deriving DecidableEq

/-- The `grayscale` component of `FilterConfig`. -/
structure GrayscaleConfig where
  enabled : Bool
  intensity : Int
deriving DecidableEq

/-- `FilterConfig` from services/geminiService.ts; 100 is the identity for
brightness and contrast. -/
structure FilterConfig where
  grayscale : GrayscaleConfig
  brightness : Int
  contrast : Int
deriving DecidableEq

/-- The three possible `TransparencyConfig.method` values. -/
inductive TransparencyMethod where
  | fill
  | dither
  | preserve
deriving DecidableEq

/-- `TransparencyConfig` from services/geminiService.ts. -/
structure TransparencyConfig where
  method : TransparencyMethod
  fillColor : String
deriving DecidableEq

/-- The nine anchor points of `WatermarkConfig.position`. -/
inductive WatermarkPosition where
  | topLeft
  | topCenter
  | topRight
  | middleLeft
  | center
  | middleRight
  | bottomLeft
  | bottomCenter
  | bottomRight
deriving DecidableEq

/-- `WatermarkConfig` from services/geminiService.ts. -/
structure WatermarkConfig where
  enabled : Bool
  text : String
  opacity : Int
  scale : Int
  color : String
  position : WatermarkPosition
deriving DecidableEq

/-- The three accepted output mime types
(`'image/png' | 'image/jpeg' | 'image/webp'`). -/
inductive OutputFormat where
  | png
  | jpeg
  | webp
deriving DecidableEq

/-- The mime string of an output format, as it appears in the source. -/
def OutputFormat.mime : OutputFormat → String
  | .png => "image/png"
  | .jpeg => "image/jpeg"
  | .webp => "image/webp"

/-- The `Settings` record of EditorView.tsx: the full argument list of
`editImageWithGemini` minus the image payload. -/
structure Settings where
  userPrompt : String
  outputFormat : OutputFormat
  outputQuality : Int
  resizeConfig : ResizeConfig
  cropConfig : CropConfig
  rotationAngle : Int
  textOverlayConfig : TextOverlayConfig
  filterConfig : FilterConfig
  transparencyConfig : TransparencyConfig
  watermarkConfig : WatermarkConfig
deriving DecidableEq

/-- `defaultSettings` from EditorView.tsx. -/
def defaultSettings : Settings :=
  { userPrompt := "Make this image look more professional and vibrant."
    outputFormat := OutputFormat.png
    outputQuality := 92
    resizeConfig := { enabled := false, width := 1024, height := 1024, maintainAspectRatio := true }
    cropConfig := { enabled := false, x := 10, y := 10, width := 80, height := 80 }
    rotationAngle := 0
    textOverlayConfig := { enabled := false, content := "Your Text Here", font := "Arial, sans-serif", size := 48, color := "#FFFFFF", positionX := 50, positionY := 50 }
    filterConfig := { grayscale := { enabled := false, intensity := 100 }, brightness := 100, contrast := 100 }
    transparencyConfig := { method := TransparencyMethod.preserve, fillColor := "#FFFFFF" }
    watermarkConfig := { enabled := false, text := "Watermark", opacity := 50, scale := 25, color := "#FFFFFF", position := WatermarkPosition.bottomRight } }

/-! ## Instruction compiler (`editImageWithGemini` prompt assembly)

The source builds `finalPrompt` by a fixed sequence of conditional string
appends.  We embed it as the ordered list of appended segments, each tagged
with the stage it belongs to; the final prompt is the concatenation of the
segment texts. -/

/-- The stage tags of the compiled instruction sequence, in the order the
source appends them. -/
inductive Stage where
  | userPrompt
  | rotation
  | crop
  | filters
  | transparency
  | watermark
  | resize
  | textOverlay
  | encoding
deriving DecidableEq

/-- The fixed precedence of each stage (its position in the documented
stage order). -/
def stagePriority : Stage → Nat
  | .userPrompt => 0
  | .rotation => 1
  | .crop => 2
  | .filters => 3
  | .transparency => 4
  | .watermark => 5
  | .resize => 6
  | .textOverlay => 7
  | .encoding => 8

/-- One entry of the `filterInstructions` array built at lines 293-303 of
the service file, tagged by which adjustment it is. -/
inductive FilterInstr where
  | grayscale (intensity : Int)
  | brightness (value : Int)
  | contrast (value : Int)
deriving DecidableEq

/-- The instruction text pushed for each filter adjustment. -/
def FilterInstr.text : FilterInstr → String
  | .grayscale i => "apply a grayscale filter with an intensity of " ++ toString i ++ "%. A value of 100% results in a fully black and white image, while a lower value partially desaturates the image"
  | .brightness b => "adjust the brightness to " ++ toString b ++ "% of the original"
  | .contrast c => "adjust the contrast to " ++ toString c ++ "% of the original"

/-- The `filterInstructions` array: grayscale is pushed when
`filterConfig.grayscale.enabled` holds, brightness when it is not 100,
contrast when it is not 100, in that order. -/
def filterInstructions (f : FilterConfig) : List FilterInstr :=
  (if f.grayscale.enabled then [FilterInstr.grayscale f.grayscale.intensity] else [])
    ++ (if f.brightness ≠ 100 then [FilterInstr.brightness f.brightness] else [])
    ++ (if f.contrast ≠ 100 then [FilterInstr.contrast f.contrast] else [])

/-- Recognizer for the grayscale entry of `filterInstructions`. -/
def isGrayscaleInstr : FilterInstr → Bool
  | .grayscale _ => true
  | _ => false

/-- The semantics of the JavaScript `.trim()` calls in the source: drop
whitespace characters from both ends of the string. -/
def trimString (s : String) : String :=
  ⟨((s.data.dropWhile Char.isWhitespace).reverse.dropWhile Char.isWhitespace).reverse⟩

/-- The opening line of `finalPrompt`. -/
def userPromptText (p : String) : String :=
  "Apply the following edits to the image. The user\x27s primary request is: \"" ++ p ++ "\"."

/-- The rotation segment appended when `rotationAngle !== 0`. -/
def rotationText (a : Int) : String :=
  "\n\n--- ROTATION INSTRUCTIONS ---\nFirst, rotate the image by " ++ toString a ++ " degrees clockwise. All subsequent instructions should apply to the rotated image."

/-- The crop segment appended when `cropConfig.enabled`. -/
def cropText (c : CropConfig) : String :=
  "\n\n--- CROP INSTRUCTIONS ---\nAfter any rotation, crop the image. The crop region is defined by the following percentages of the image dimensions:\n- Start X (from left): " ++ toString c.x ++ "%\n- Start Y (from top): " ++ toString c.y ++ "%\n- Crop Width: " ++ toString c.width ++ "%\n- Crop Height: " ++ toString c.height ++ "%\nAll subsequent instructions should be applied to this newly cropped image area."

/-- The combined filter segment appended when `filterInstructions` is
non-empty; the individual instructions are joined with "; ". -/
def filtersText (f : FilterConfig) : String :=
  "\n\n--- FILTER INSTRUCTIONS ---\nAfter cropping, but before resizing or adding text, apply these adjustments: " ++ String.intercalate "; " ((filterInstructions f).map FilterInstr.text) ++ "."

/-- The transparency segment: one of three texts, always appended. -/
def transparencyText (t : TransparencyConfig) : String :=
  match t.method with
  | .fill => "\n\n--- TRANSPARENCY HANDLING ---\nIf the original image contains transparent areas (alpha channel), fill these areas completely with the solid color " ++ t.fillColor ++ ". This background color should be applied before any other elements like text overlays."
  | .dither => "\n\n--- TRANSPARENCY HANDLING ---\nIf the original image contains transparent areas, create a smooth, dithered transition to an opaque background. Avoid a solid color fill; instead, use a subtle pattern or blend to handle the transparency gracefully."
  | .preserve => "\n\n--- TRANSPARENCY HANDLING ---\nPreserve any transparency (alpha channel) from the original image in the final output. The background must remain transparent."

/-- The `positionDescriptions` lookup of the watermark block. -/
def positionDescription : WatermarkPosition → String
  | .topLeft => "in the top-left corner"
  | .topCenter => "centered horizontally at the top"
  | .topRight => "in the top-right corner"
  | .middleLeft => "centered vertically on the left edge"
  | .center => "in the absolute center"
  | .middleRight => "centered vertically on the right edge"
  | .bottomLeft => "in the bottom-left corner"
  | .bottomCenter => "centered horizontally at the bottom"
  | .bottomRight => "in the bottom-right corner"

/-- The watermark segment appended when
`watermarkConfig.enabled && watermarkConfig.text.trim()`. -/
def watermarkText (w : WatermarkConfig) : String :=
  "\n\n--- WATERMARK INSTRUCTIONS ---\nAdd a text watermark with the following properties. This should be applied before resizing and before the main text overlay.\n- CONTENT: \"" ++ trimString w.text ++ "\"\n- COLOR: Use the color " ++ w.color ++ ".\n- FONT: Use a clean, sans-serif font.\n- SIZE: The watermark\x27s width should be approximately " ++ toString w.scale ++ "% of the image\x27s total width.\n- OPACITY: The watermark should have an opacity of " ++ toString w.opacity ++ "%.\n- POSITION: Place the watermark " ++ positionDescription w.position ++ ". The watermark should be subtly blended and not obscure the main subject."

/-- The resize segment appended when `resizeConfig.enabled`, in its two
sub-modes. -/
def resizeText (r : ResizeConfig) : String :=
  if r.maintainAspectRatio then
    "\n\n--- RESIZE INSTRUCTIONS ---\nAfter all other edits, resize the resulting image to fit within a " ++ toString r.width ++ "x" ++ toString r.height ++ " bounding box. Maintain the aspect ratio of the edited image. Do not stretch, distort, or perform additional cropping to fit; instead, scale it down proportionally. The final image\x27s largest dimension must not exceed the corresponding dimension of the bounding box."
  else
    "\n\n--- RESIZE INSTRUCTIONS ---\nAfter all other edits, resize the resulting image to the exact dimensions of " ++ toString r.width ++ "px width and " ++ toString r.height ++ "px height. Stretch or squash the image as necessary to meet these exact dimensions."

/-- The text-overlay segment appended when
`textOverlayConfig.enabled && textOverlayConfig.content.trim()`. -/
def textOverlayText (t : TextOverlayConfig) : String :=
  "\n\n--- TEXT OVERLAY INSTRUCTIONS ---\nAs the final step, after all other transformations, add text to the image with these exact properties:\n- CONTENT: \"" ++ trimString t.content ++ "\"\n- COLOR: Use the color " ++ t.color ++ ".\n- FONT: Use a font that looks like " ++ t.font ++ ".\n- SIZE: Make the font size proportional to " ++ toString t.size ++ " on a 1024px image.\n- POSITION: Center the text at " ++ toString t.positionX ++ "% from the left and " ++ toString t.positionY ++ "% from the top. Do not add any background or bounding box to the text."

/-- The output-encoding segment, always appended last; lossy formats carry
the quality setting. -/
def outputFormatText (fmt : OutputFormat) (q : Int) : String :=
  if fmt = OutputFormat.jpeg ∨ fmt = OutputFormat.webp then
    "\n\n--- OUTPUT FORMAT ---\nEncode the final image as " ++ fmt.mime ++ " with a quality setting of approximately " ++ toString q ++ "/100."
  else
    "\n\n--- OUTPUT FORMAT ---\nEncode the final image as lossless " ++ fmt.mime ++ "."

/-- The compiled instruction sequence of `editImageWithGemini`
(lines 283-349): the ordered list of prompt segments, each tagged with its
stage, with exactly the conditional structure of the source. -/
def editPromptSegments (s : Settings) : List (Stage × String) :=
  [(Stage.userPrompt, userPromptText s.userPrompt)]
    ++ (if s.rotationAngle ≠ 0 then [(Stage.rotation, rotationText s.rotationAngle)] else [])
    ++ (if s.cropConfig.enabled then [(Stage.crop, cropText s.cropConfig)] else [])
    ++ (if (filterInstructions s.filterConfig).length > 0 then [(Stage.filters, filtersText s.filterConfig)] else [])
    ++ [(Stage.transparency, transparencyText s.transparencyConfig)]
    ++ (if s.watermarkConfig.enabled ∧ trimString s.watermarkConfig.text ≠ "" then [(Stage.watermark, watermarkText s.watermarkConfig)] else [])
    ++ (if s.resizeConfig.enabled then [(Stage.resize, resizeText s.resizeConfig)] else [])
    ++ (if s.textOverlayConfig.enabled ∧ trimString s.textOverlayConfig.content ≠ "" then [(Stage.textOverlay, textOverlayText s.textOverlayConfig)] else [])
    ++ [(Stage.encoding, outputFormatText s.outputFormat s.outputQuality)]

/-- The stages present in the compiled sequence, in emission order. -/
def editStages (s : Settings) : List Stage :=
  (editPromptSegments s).map Prod.fst

/-- The `finalPrompt` string sent to the service: the concatenation of all
emitted segments. -/
def finalPrompt (s : Settings) : String :=
  String.join ((editPromptSegments s).map Prod.snd)

/-- Settings with the grayscale filter enabled at intensity 0 and every
other optional stage disabled (all other fields as in the defaults). -/
def grayZeroSettings : Settings :=
  { defaultSettings with
      filterConfig := { grayscale := { enabled := true, intensity := 0 }, brightness := 100, contrast := 100 } }

/-! ## Response handling of `editImageWithGemini` (lines 364-369) -/

/-- The `inlineData` payload of one response part: base64 data plus the
mime type the service reports. -/
structure InlinePart where
  data : String
  mimeType : String
deriving DecidableEq

/-- One part of `response.candidates[0].content.parts`: it may carry inline
image data, text, or neither. -/
structure ResponsePart where
  inlineData : Option InlinePart
  text : Option String
deriving DecidableEq

/-- The result-extraction loop at the end of `editImageWithGemini`: return
a data URL built from the requested output format and the first part that
has `inlineData`; throw `No image was generated.` when no part does. -/
def extractEditImage (outputFormat : OutputFormat) : List ResponsePart → Except String String
  | [] => Except.error "No image was generated."
  | part :: rest =>
    match part.inlineData with
    | some d => Except.ok ("data:" ++ outputFormat.mime ++ ";base64," ++ d.data)
    | none => extractEditImage outputFormat rest

/-- A concrete service response: a text part, then a jpeg-tagged inline
part, then a png-tagged inline part. -/
def sampleParts : List ResponsePart :=
  [ { inlineData := none, text := some "Here is the edited image." },
    { inlineData := some { data := "QUJD", mimeType := "image/jpeg" }, text := none },
    { inlineData := some { data := "WFla", mimeType := "image/png" }, text := none } ]

/-! ## Batch orchestration (`EditorView.handleGenerateEdits`)

The per-item state, the selection and the sequential processing loop of
EditorView.tsx, embedded with explicit state passing.  The external call to
`editImageWithGemini` is abstracted as an oracle `cap` mapping a work item
to either a new image URL or an error message. -/

/-- The `ImageState` record of EditorView.tsx. -/
structure ImageState where
  id : String
  originalDataUrl : String
  originalFileName : String
  originalFileType : String
  editedUrl : Option String
  isLoading : Bool
  error : Option String
deriving DecidableEq

/-- The `progress` state `{current, total}`. -/
structure Progress where
  current : Nat
  total : Nat
deriving DecidableEq

/-- The component state touched by `handleGenerateEdits`: the batch, the
processing flag, the progress counter and the selection. -/
structure EditorState where
  images : List ImageState
  isProcessing : Bool
  progress : Progress
  selectedImageIds : List String
deriving DecidableEq

/-- The error message recorded on failure:
`err.message || 'An unexpected error occurred.'`. -/
def errMsg (m : String) : String :=
  if m = "" then "An unexpected error occurred." else m

/-- The per-item update applied when the capability call settles: success
stores the new URL and clears the loading flag; failure stores the message
and clears the loading flag. -/
def applyResult (img : ImageState) (r : Except String String) : ImageState :=
  match r with
  | Except.ok url => { img with editedUrl := some url, isLoading := false }
  | Except.error m => { img with error := some (errMsg m), isLoading := false }

/-- One loop iteration's `setImages` call: the item whose id matches the
processed snapshot item receives the capability result; all others are kept
as they are. -/
def runStep (cap : ImageState → Except String String)
    (imgs : List ImageState) (image : ImageState) : List ImageState :=
  imgs.map fun img => if img.id = image.id then applyResult img (cap image) else img

/-- The pre-run marking of one selected item:
`{ ...img, isLoading: true, error: null, editedUrl: null }`. -/
def clearForRun (img : ImageState) : ImageState :=
  { img with isLoading := true, error := none, editedUrl := none }

/-- The pre-run `setImages` call: every selected item is marked loading with
its prior result and error cleared; unselected items are untouched. -/
def markSelected (sel : List String) (imgs : List ImageState) : List ImageState :=
  imgs.map fun img => if sel.contains img.id then clearForRun img else img

/-- The `for` loop of `handleGenerateEdits`: process the snapshot list
`todo` sequentially from loop index `i`, threading the component state and
collecting the progress values published after each item. -/
def processLoop (cap : ImageState → Except String String) :
    List ImageState → Nat → EditorState → EditorState × List Progress
  | [], _, st => (st, [])
  | image :: rest, i, st =>
    let imgs' := runStep cap st.images image
    let prog' : Progress := { st.progress with current := i + 1 }
    let res := processLoop cap rest (i + 1) { st with images := imgs', progress := prog' }
    (res.1, prog' :: res.2)

/-- The state published at the start of a run: processing on, progress
`{0, total}`, selected items marked loading and cleared. -/
def startOfRun (st : EditorState) (total : Nat) : EditorState :=
  { st with
      isProcessing := true
      progress := { current := 0, total := total }
      images := markSelected st.selectedImageIds st.images }

/-- `handleGenerateEdits` (EditorView.tsx lines 138-189): filter the batch
to the selection, no-op when that is empty or a run is active, otherwise
mark, process sequentially and clear the processing flag.  The second
component is the ordered list of progress values published during the
run. -/
def handleGenerateEdits (cap : ImageState → Except String String)
    (st : EditorState) : EditorState × List Progress :=
  let imagesToProcess := st.images.filter fun img => st.selectedImageIds.contains img.id
  if imagesToProcess.length = 0 ∨ st.isProcessing = true then (st, [])
  else
    let total := imagesToProcess.length
    let res := processLoop cap imagesToProcess 0 (startOfRun st total)
    ({ res.1 with isProcessing := false }, { current := 0, total := total } :: res.2)

/-- The cumulative per-item update an item value undergoes while the loop
walks the snapshot list `todo`. -/
def applyTodo (cap : ImageState → Except String String) :
    List ImageState → ImageState → ImageState
  | [], img => img
  | image :: rest, img =>
    applyTodo cap rest (if img.id = image.id then applyResult img (cap image) else img)

/-- The net effect of a completed run on one item of the batch: a selected
item is cleared and then receives its own capability result; an unselected
item is untouched. -/
def runOutcome (cap : ImageState → Except String String)
    (sel : List String) (img : ImageState) : ImageState :=
  if sel.contains img.id then applyResult (clearForRun img) (cap img) else img

/-- A two-image state with nothing selected. -/
def noSelectionState : EditorState :=
  { images :=
      [ { id := "a", originalDataUrl := "data:image/png;base64,AAAA", originalFileName := "a.png", originalFileType := "image/png", editedUrl := none, isLoading := false, error := none },
        { id := "b", originalDataUrl := "data:image/png;base64,BBBB", originalFileName := "b.png", originalFileType := "image/png", editedUrl := none, isLoading := false, error := none } ]
    isProcessing := false
    progress := { current := 0, total := 0 }
    selectedImageIds := [] }

/-- A capability oracle that always succeeds with a fixed URL. -/
def alwaysOkCap : ImageState → Except String String :=
  fun _ => Except.ok "data:image/png;base64,R0s="

/-- First work item of the two-image failure scenario. -/
def imgA : ImageState :=
  { id := "a", originalDataUrl := "data:image/png;base64,AAAA", originalFileName := "a.png",
    originalFileType := "image/png", editedUrl := none, isLoading := false, error := none }

/-- Second work item of the two-image failure scenario. -/
def imgB : ImageState :=
  { id := "b", originalDataUrl := "data:image/png;base64,BBBB", originalFileName := "b.png",
    originalFileType := "image/png", editedUrl := none, isLoading := false, error := none }

/-- A batch of two images, both selected, no run active. -/
def twoImageState : EditorState :=
  { images := [imgA, imgB]
    isProcessing := false
    progress := { current := 0, total := 0 }
    selectedImageIds := ["a", "b"] }

/-- A capability that fails for item `b` only. -/
def failSecondCap : ImageState → Except String String :=
  fun img => if img.id = "b" then Except.error "Service rejected the image."
    else Except.ok "data:image/png;base64,T0s="

/-- A batch of three images with only the first selected. -/
def threeImageState : EditorState :=
  { images :=
      [ imgA, imgB,
        { id := "c", originalDataUrl := "data:image/png;base64,CCCC", originalFileName := "c.png",
          originalFileType := "image/png", editedUrl := none, isLoading := false, error := none } ]
    isProcessing := false
    progress := { current := 0, total := 0 }
    selectedImageIds := ["a"] }

/-! ## Compressor run and auto-compress trigger (CompressorView.tsx)

The compressor has no selection: a run processes the whole batch.  Its
`useEffect` auto-trigger fires when auto-compress is on, no run is active
and the head of the batch has not been attempted. -/

/-- The `ImageState` record of CompressorView.tsx (the `File` object is
represented by its object URL). -/
structure CompImage where
  id : String
  originalUrl : String
  compressedUrl : Option String
  isLoading : Bool
  error : Option String
deriving DecidableEq

/-- The CompressorView component state driven by `handleCompress` and the
auto-compress effect. -/
structure CompressorState where
  images : List CompImage
  isProcessing : Bool
  progress : Progress
  autoCompress : Bool
deriving DecidableEq

/-- The per-item update when a compressor capability call settles. -/
def compApplyResult (img : CompImage) (r : Except String String) : CompImage :=
  match r with
  | Except.ok url => { img with compressedUrl := some url, isLoading := false }
  | Except.error m => { img with error := some (errMsg m), isLoading := false }

/-- One compressor loop iteration's `setImages` call. -/
def compRunStep (cap : CompImage → Except String String)
    (imgs : List CompImage) (image : CompImage) : List CompImage :=
  imgs.map fun img => if img.id = image.id then compApplyResult img (cap image) else img

/-- The pre-run marking of every item:
`{ ...img, isLoading: true, error: null, compressedUrl: null }`. -/
def compClearForRun (img : CompImage) : CompImage :=
  { img with isLoading := true, error := none, compressedUrl := none }

/-- The `for` loop of `handleCompress`, threading state. -/
def compProcessLoop (cap : CompImage → Except String String) :
    List CompImage → Nat → CompressorState → CompressorState
  | [], _, st => st
  | image :: rest, i, st =>
    compProcessLoop cap rest (i + 1)
      { st with
          images := compRunStep cap st.images image
          progress := { st.progress with current := i + 1 } }

/-- `handleCompress` (CompressorView.tsx lines 79-110): no-op when the
batch is empty or a run is active; otherwise mark every item loading,
process the whole snapshot sequentially and clear the processing flag. -/
def handleCompress (cap : CompImage → Except String String)
    (st : CompressorState) : CompressorState :=
  if st.images.length = 0 ∨ st.isProcessing = true then st
  else
    let st1 : CompressorState :=
      { st with
          isProcessing := true
          progress := { current := 0, total := st.images.length }
          images := st.images.map compClearForRun }
    let fin := compProcessLoop cap st.images 0 st1
    { fin with isProcessing := false }

/-- `hasUnprocessedImages` of the auto-compress effect (line 115):
`images.length > 0 && !images[0].isLoading && !images[0].compressedUrl &&
!images[0].error` — it inspects only the head of the batch. -/
def hasUnprocessedImages : List CompImage → Bool
  | [] => false
  | img :: _ => !img.isLoading && img.compressedUrl.isNone && img.error.isNone

/-- The guard of the auto-compress effect (lines 112-119): it invokes
`handleCompress` exactly when this is true. -/
def autoCompressFires (st : CompressorState) : Bool :=
  st.autoCompress && !st.isProcessing && hasUnprocessedImages st.images

/-- `handleReset`: drop the batch, stop processing, reset progress
(settings are kept). -/
def compReset (st : CompressorState) : CompressorState :=
  { st with images := [], isProcessing := false, progress := { current := 0, total := 0 } }

/-- `handleImageSelect`: reset, then create one fresh `Idle` item per input
file, given as (id, object URL) pairs. -/
def handleImageSelect (files : List (String × String))
    (st : CompressorState) : CompressorState :=
  { compReset st with
      images := files.map fun f =>
        { id := f.1, originalUrl := f.2, compressedUrl := none,
          isLoading := false, error := none } }

/-- The `setAutoCompress(prev => !prev)` toggle. -/
def toggleAutoCompress (st : CompressorState) : CompressorState :=
  { st with autoCompress := !st.autoCompress }

/-- The initial CompressorView state (all `useState` initial values). -/
def compInitState : CompressorState :=
  { images := [], isProcessing := false,
    progress := { current := 0, total := 0 }, autoCompress := false }

/-- The states CompressorView can actually be in: reachable from the
initial state by loading a batch, resetting, toggling auto-compress and
running the compressor against an arbitrary capability. -/
inductive CompReachable : CompressorState → Prop where
  | init : CompReachable compInitState
  | load (files : List (String × String)) {st : CompressorState} :
      CompReachable st → CompReachable (handleImageSelect files st)
  | reset {st : CompressorState} :
      CompReachable st → CompReachable (compReset st)
  | toggleAuto {st : CompressorState} :
      CompReachable st → CompReachable (toggleAutoCompress st)
  | compress (cap : CompImage → Except String String) {st : CompressorState} :
      CompReachable st → CompReachable (handleCompress cap st)

/-- The cumulative update of one compressor item over the snapshot walk. -/
def compApplyTodo (cap : CompImage → Except String String) :
    List CompImage → CompImage → CompImage
  | [], img => img
  | image :: rest, img =>
    compApplyTodo cap rest (if img.id = image.id then compApplyResult img (cap image) else img)

/-- An item that has been attempted: it carries a result or an error. -/
def attempted (img : CompImage) : Bool :=
  img.compressedUrl.isSome || img.error.isSome

/-- A compressor capability that always succeeds. -/
def compOkCap : CompImage → Except String String :=
  fun _ => Except.ok "data:image/png;base64,Q09NUA=="

/-- A freshly loaded one-image batch with auto-compress switched on. -/
def compLoadedState : CompressorState :=
  handleImageSelect [("x", "blob:x")] (toggleAutoCompress compInitState)

/-- Settings with the watermark and the text overlay both enabled but with
whitespace-only text content. -/
def whitespaceTextSettings : Settings :=
  { defaultSettings with
      watermarkConfig := { defaultSettings.watermarkConfig with enabled := true, text := "   " }
      textOverlayConfig := { defaultSettings.textOverlayConfig with enabled := true, content := " \t " } }

/-! ## Theorems -/

/-- The stage list of the compiled sequence, with the segment texts
projected away: same conditions, same order. -/
lemma editStages_eq (s : Settings) :
    editStages s =
      [Stage.userPrompt]
        ++ (if s.rotationAngle ≠ 0 then [Stage.rotation] else [])
        ++ (if s.cropConfig.enabled then [Stage.crop] else [])
        ++ (if (filterInstructions s.filterConfig).length > 0 then [Stage.filters] else [])
        ++ [Stage.transparency]
        ++ (if s.watermarkConfig.enabled ∧ trimString s.watermarkConfig.text ≠ "" then [Stage.watermark] else [])
        ++ (if s.resizeConfig.enabled then [Stage.resize] else [])
        ++ (if s.textOverlayConfig.enabled ∧ trimString s.textOverlayConfig.content ≠ "" then [Stage.textOverlay] else [])
        ++ [Stage.encoding] := by
  unfold editStages editPromptSegments
  simp only [List.map_append, apply_ite (List.map Prod.fst), List.map_cons, List.map_nil]

/-- C1: for every `Settings` value, the stages of the compiled instruction
sequence appear in the fixed order user prompt, rotation, crop, filters,
transparency, watermark, resize, text overlay, output encoding: the
emitted stage list is strictly increasing in the stage priority, for all
combinations of enabled flags and parameter values. -/
theorem stage_order_invariant (s : Settings) :
    (editStages s).Pairwise (fun a b => stagePriority a < stagePriority b) := by
  rw [editStages_eq]
  split_ifs <;> decide

/-- C1 witness: the stage-order theorem evaluated at the default settings. -/
theorem stage_order_invariant_witness :
    (editStages defaultSettings).Pairwise (fun a b => stagePriority a < stagePriority b) :=
  stage_order_invariant defaultSettings

/-- C2: with rotation 0, crop, grayscale, watermark, resize and text overlay
disabled, and brightness and contrast at 100, the compiled sequence is
exactly the user prompt followed by the transparency-handling stage and the
output-encoding stage. -/
theorem only_unconditional_stages (s : Settings)
    (hrot : s.rotationAngle = 0)
    (hcrop : s.cropConfig.enabled = false)
    (hgray : s.filterConfig.grayscale.enabled = false)
    (hbr : s.filterConfig.brightness = 100)
    (hco : s.filterConfig.contrast = 100)
    (hwm : s.watermarkConfig.enabled = false)
    (hrs : s.resizeConfig.enabled = false)
    (hto : s.textOverlayConfig.enabled = false) :
    editStages s = [Stage.userPrompt, Stage.transparency, Stage.encoding] := by
  rw [editStages_eq]
  simp [filterInstructions, hrot, hcrop, hgray, hbr, hco, hwm, hrs, hto]

/-- C2 witness: the default settings satisfy every hypothesis, and compile
to exactly the three unconditional segments. -/
theorem only_unconditional_stages_witness :
    editStages defaultSettings = [Stage.userPrompt, Stage.transparency, Stage.encoding] :=
  only_unconditional_stages defaultSettings rfl rfl rfl rfl rfl rfl rfl rfl

/-- C3 counterexample: with grayscale enabled and intensity 0 the compiled
sequence still contains the filters stage, and the filter-instruction list
still contains a grayscale instruction (describing 0% intensity), so the
grayscale stage is not omitted at intensity 0. -/
theorem grayscale_zero_intensity_emitted :
    (filterInstructions grayZeroSettings.filterConfig).any isGrayscaleInstr = true ∧
    filterInstructions grayZeroSettings.filterConfig = [FilterInstr.grayscale 0] ∧
    Stage.filters ∈ editStages grayZeroSettings := by
  refine ⟨by decide, by decide, ?_⟩
  rw [editStages_eq]
  decide

/-- C3 amended: the grayscale instruction is present in the compiled
filter-instruction list exactly when `grayscale.enabled` is true; the
intensity value (0 included) never suppresses it. -/
theorem grayscale_emitted_iff_enabled (f : FilterConfig) :
    (filterInstructions f).any isGrayscaleInstr = f.grayscale.enabled := by
  unfold filterInstructions
  split_ifs <;> simp_all [isGrayscaleInstr]

/-- C10: the extraction returns a data URL whose declared mime type is the
requested output format and whose payload is the first response part
carrying inline data (the mime type the service reports is ignored), and
it fails with `No image was generated.` exactly when no part carries
inline data. -/
theorem edit_result_mime_and_error (fmt : OutputFormat) (parts : List ResponsePart) :
    (∀ d, parts.findSome? (fun p => p.inlineData) = some d →
        extractEditImage fmt parts = Except.ok ("data:" ++ fmt.mime ++ ";base64," ++ d.data)) ∧
    (extractEditImage fmt parts = Except.error "No image was generated." ↔
        ∀ p ∈ parts, p.inlineData = none) := by
  induction parts with
  | nil => simp [extractEditImage, List.findSome?]
  | cons part rest ih =>
    unfold extractEditImage
    rcases hpart : part.inlineData with _ | d
    · simpa [List.findSome?, hpart] using ih
    · constructor
      · intro d' hd'
        simp [List.findSome?, hpart] at hd'
        simp [hd']
      · constructor
        · intro h
          exact absurd h (by simp)
        · intro h
          have := h part (by simp)
          rw [hpart] at this
          exact absurd this (by simp)

/-- C10 witness: requesting webp output against `sampleParts` yields a data
URL declaring `image/webp` with the first inline payload, and a response
with no inline data fails with the exact error message. -/
theorem edit_result_mime_and_error_witness :
    extractEditImage OutputFormat.webp sampleParts =
      Except.ok ("data:" ++ OutputFormat.webp.mime ++ ";base64," ++ "QUJD") ∧
    extractEditImage OutputFormat.webp [{ inlineData := none, text := some "no image" }] =
      Except.error "No image was generated." :=
  ⟨(edit_result_mime_and_error OutputFormat.webp sampleParts).1
      { data := "QUJD", mimeType := "image/jpeg" } (by decide),
   (edit_result_mime_and_error OutputFormat.webp
      [{ inlineData := none, text := some "no image" }]).2.mpr (by decide)⟩

lemma applyResult_id (img : ImageState) (r : Except String String) :
    (applyResult img r).id = img.id := by
  cases r <;> rfl

lemma clearForRun_id (img : ImageState) : (clearForRun img).id = img.id := rfl

/-- An item whose id never occurs in the processed snapshot passes through
the whole loop unchanged. -/
lemma applyTodo_not_mem (cap : ImageState → Except String String)
    (todo : List ImageState) (img : ImageState)
    (h : img.id ∉ todo.map (fun j => j.id)) : applyTodo cap todo img = img := by
  induction todo with
  | nil => rfl
  | cons image rest ih =>
    simp only [List.map_cons, List.mem_cons, not_or] at h
    rw [applyTodo, if_neg h.1]
    exact ih h.2

/-- With pairwise-distinct ids in the snapshot, an item matching snapshot
entry `image` receives exactly the result of `cap image` and nothing else. -/
lemma applyTodo_hit (cap : ImageState → Except String String)
    (todo : List ImageState) (image img : ImageState)
    (hnd : (todo.map (fun j => j.id)).Nodup) (hmem : image ∈ todo)
    (hid : img.id = image.id) :
    applyTodo cap todo img = applyResult img (cap image) := by
  induction todo with
  | nil => cases hmem
  | cons hd rest ih =>
    simp only [List.map_cons, List.nodup_cons] at hnd
    rcases List.mem_cons.mp hmem with heq | hmem'
    · subst heq
      rw [applyTodo, if_pos hid]
      apply applyTodo_not_mem
      rw [applyResult_id, hid]
      exact hnd.1
    · have hne : ¬ img.id = hd.id := by
        rw [hid]
        intro hcontra
        exact hnd.1 (hcontra ▸ List.mem_map.mpr ⟨image, hmem', rfl⟩)
      rw [applyTodo, if_neg hne]
      exact ih hnd.2 hmem'

/-- The loop's net effect on the batch is the pointwise accumulated
update. -/
lemma processLoop_images (cap : ImageState → Except String String)
    (todo : List ImageState) (i : Nat) (st : EditorState) :
    (processLoop cap todo i st).1.images = st.images.map (applyTodo cap todo) := by
  induction todo generalizing i st with
  | nil =>
    rw [processLoop]
    exact ((List.map_congr_left fun a _ => rfl).trans (List.map_id st.images)).symm
  | cons image rest ih =>
    simp only [processLoop]
    rw [ih]
    unfold runStep
    rw [List.map_map]
    exact List.map_congr_left fun a _ => rfl

lemma processLoop_isProcessing (cap : ImageState → Except String String)
    (todo : List ImageState) (i : Nat) (st : EditorState) :
    (processLoop cap todo i st).1.isProcessing = st.isProcessing := by
  induction todo generalizing i st with
  | nil => rfl
  | cons image rest ih =>
    simp only [processLoop]
    rw [ih]

lemma processLoop_selected (cap : ImageState → Except String String)
    (todo : List ImageState) (i : Nat) (st : EditorState) :
    (processLoop cap todo i st).1.selectedImageIds = st.selectedImageIds := by
  induction todo generalizing i st with
  | nil => rfl
  | cons image rest ih =>
    simp only [processLoop]
    rw [ih]

lemma processLoop_total (cap : ImageState → Except String String)
    (todo : List ImageState) (i : Nat) (st : EditorState) :
    (processLoop cap todo i st).1.progress.total = st.progress.total := by
  induction todo generalizing i st with
  | nil => rfl
  | cons image rest ih =>
    simp only [processLoop]
    rw [ih]

/-- The progress values published by the loop: one per processed item,
counting up from `i + 1`, with the total untouched. -/
lemma processLoop_trace (cap : ImageState → Except String String)
    (todo : List ImageState) (i : Nat) (st : EditorState) :
    (processLoop cap todo i st).2 =
      (List.range' (i + 1) todo.length).map
        (fun c => { current := c, total := st.progress.total }) := by
  induction todo generalizing i st with
  | nil => rfl
  | cons image rest ih =>
    simp only [processLoop]
    rw [ih, List.length_cons, List.range'_succ, List.map_cons]

/-- C5: running the orchestrator with an empty selection, or while a run is
already active, is a no-op: the state is returned unchanged and no
progress value is published. -/
theorem run_noop (cap : ImageState → Except String String) (st : EditorState)
    (h : st.selectedImageIds = [] ∨ st.isProcessing = true) :
    handleGenerateEdits cap st = (st, []) := by
  simp only [handleGenerateEdits]
  rcases h with h | h
  · have hfil : (st.images.filter fun img => st.selectedImageIds.contains img.id) = [] := by
      rw [h]
      simp
    rw [if_pos (Or.inl (by rw [hfil]; rfl))]
  · rw [if_pos (Or.inr h)]

/-- C5 witness: the no-op theorem applied to a concrete unselected batch. -/
theorem run_noop_witness :
    handleGenerateEdits alwaysOkCap noSelectionState = (noSelectionState, []) :=
  run_noop alwaysOkCap noSelectionState (Or.inl rfl)

/-- The ids of the selected snapshot are pairwise distinct whenever the
batch ids are. -/
lemma todo_nodup (st : EditorState)
    (hnd : (st.images.map (fun img => img.id)).Nodup) :
    (((st.images.filter fun img => st.selectedImageIds.contains img.id).map
        (fun img => img.id))).Nodup :=
  hnd.sublist ((List.filter_sublist _).map _)

/-- The net effect of a completed run on the batch: every item's final
value is its own `runOutcome`, provided the batch ids are distinct and the
run is not a no-op. -/
theorem handleGenerateEdits_images (cap : ImageState → Except String String)
    (st : EditorState)
    (hnd : (st.images.map (fun img => img.id)).Nodup)
    (hne : (st.images.filter fun img => st.selectedImageIds.contains img.id) ≠ [])
    (hproc : st.isProcessing = false) :
    (handleGenerateEdits cap st).1.images =
      st.images.map (runOutcome cap st.selectedImageIds) := by
  have hcond : ¬(((st.images.filter fun img => st.selectedImageIds.contains img.id).length = 0)
      ∨ st.isProcessing = true) := by
    rw [List.length_eq_zero, hproc]
    rintro (h | h)
    · exact hne h
    · exact absurd h (by decide)
  simp only [handleGenerateEdits]
  rw [if_neg hcond]
  dsimp only
  rw [processLoop_images]
  show (markSelected st.selectedImageIds st.images).map _ = _
  unfold markSelected
  rw [List.map_map]
  apply List.map_congr_left
  intro img hmem
  by_cases hsel : st.selectedImageIds.contains img.id = true
  · have hmemtodo : img ∈ st.images.filter fun j => st.selectedImageIds.contains j.id :=
      List.mem_filter.mpr ⟨hmem, hsel⟩
    show applyTodo cap _ (if st.selectedImageIds.contains img.id then clearForRun img else img)
        = runOutcome cap st.selectedImageIds img
    rw [if_pos hsel, applyTodo_hit cap _ img (clearForRun img) (todo_nodup st hnd) hmemtodo rfl,
      runOutcome, if_pos hsel]
  · show applyTodo cap _ (if st.selectedImageIds.contains img.id then clearForRun img else img)
        = runOutcome cap st.selectedImageIds img
    rw [if_neg hsel, runOutcome, if_neg hsel]
    apply applyTodo_not_mem
    intro hidmem
    obtain ⟨j, hj, hjid⟩ := List.mem_map.mp hidmem
    have hjsel := (List.mem_filter.mp hj).2
    rw [hjid] at hjsel
    exact hsel hjsel

/-- After a genuine run, the processing flag is off again. -/
lemma handleGenerateEdits_isProcessing (cap : ImageState → Except String String)
    (st : EditorState) :
    (handleGenerateEdits cap st).1.isProcessing = false ∨
      (handleGenerateEdits cap st).1 = st := by
  simp only [handleGenerateEdits]
  split_ifs with h
  · right; rfl
  · left; rfl

/-- The outcome of a selected item on capability success. -/
lemma runOutcome_ok (cap : ImageState → Except String String) (sel : List String)
    (img : ImageState) (url : String)
    (hsel : sel.contains img.id = true) (hcap : cap img = Except.ok url) :
    runOutcome cap sel img =
      { img with editedUrl := some url, isLoading := false, error := none } := by
  unfold runOutcome
  rw [if_pos hsel, hcap]
  rfl

/-- The outcome of a selected item on capability failure. -/
lemma runOutcome_error (cap : ImageState → Except String String) (sel : List String)
    (img : ImageState) (m : String)
    (hsel : sel.contains img.id = true) (hcap : cap img = Except.error m) :
    runOutcome cap sel img =
      { img with editedUrl := none, isLoading := false, error := some (errMsg m) } := by
  unfold runOutcome
  rw [if_pos hsel, hcap]
  rfl

/-- The recorded failure message is never empty. -/
lemma errMsg_ne_empty (m : String) : errMsg m ≠ "" := by
  unfold errMsg
  split_ifs with h
  · decide
  · exact h

/-- The guard of `handleGenerateEdits` is false when the selection matches
at least one image and no run is active. -/
lemma run_guard_false (st : EditorState)
    (hne : (st.images.filter fun img => st.selectedImageIds.contains img.id) ≠ [])
    (hproc : st.isProcessing = false) :
    ¬(((st.images.filter fun img => st.selectedImageIds.contains img.id).length = 0)
      ∨ st.isProcessing = true) := by
  rw [List.length_eq_zero, hproc]
  rintro (h | h)
  · exact hne h
  · exact absurd h (by decide)

/-- A genuine run ends with the processing flag off. -/
lemma run_ends_not_processing (cap : ImageState → Except String String)
    (st : EditorState)
    (hne : (st.images.filter fun img => st.selectedImageIds.contains img.id) ≠ [])
    (hproc : st.isProcessing = false) :
    (handleGenerateEdits cap st).1.isProcessing = false := by
  simp only [handleGenerateEdits]
  rw [if_neg (run_guard_false st hne hproc)]

/-- C6: per-item failures are isolated.  In a genuine run every selected
item's final value is determined by its own capability result: a failing
item ends `Failed` with a non-empty message and no result, a succeeding
item ends `Succeeded`, every selected item ends in a terminal (not loading,
result-or-error) state, and the run itself terminates with the processing
flag off. -/
theorem run_isolates_failures (cap : ImageState → Except String String)
    (st : EditorState)
    (hnd : (st.images.map (fun img => img.id)).Nodup)
    (hne : (st.images.filter fun img => st.selectedImageIds.contains img.id) ≠ [])
    (hproc : st.isProcessing = false) :
    (handleGenerateEdits cap st).1.isProcessing = false ∧
    (handleGenerateEdits cap st).1.images =
      st.images.map (runOutcome cap st.selectedImageIds) ∧
    ∀ img ∈ st.images, st.selectedImageIds.contains img.id = true →
      (∀ m, cap img = Except.error m →
        (runOutcome cap st.selectedImageIds img).error = some (errMsg m) ∧
        errMsg m ≠ "" ∧
        (runOutcome cap st.selectedImageIds img).editedUrl = none) ∧
      (∀ url, cap img = Except.ok url →
        (runOutcome cap st.selectedImageIds img).editedUrl = some url ∧
        (runOutcome cap st.selectedImageIds img).error = none) ∧
      (runOutcome cap st.selectedImageIds img).isLoading = false ∧
      ((runOutcome cap st.selectedImageIds img).editedUrl ≠ none ∨
        (runOutcome cap st.selectedImageIds img).error ≠ none) := by
  refine ⟨run_ends_not_processing cap st hne hproc,
    handleGenerateEdits_images cap st hnd hne hproc, ?_⟩
  intro img _ hsel
  refine ⟨?_, ?_, ?_, ?_⟩
  · intro m hm
    rw [runOutcome_error cap _ img m hsel hm]
    exact ⟨rfl, errMsg_ne_empty m, rfl⟩
  · intro url hu
    rw [runOutcome_ok cap _ img url hsel hu]
    exact ⟨rfl, rfl⟩
  · rcases hcap : cap img with m | url
    · rw [runOutcome_error cap _ img m hsel hcap]
    · rw [runOutcome_ok cap _ img url hsel hcap]
  · rcases hcap : cap img with m | url
    · rw [runOutcome_error cap _ img m hsel hcap]
      right
      simp
    · rw [runOutcome_ok cap _ img url hsel hcap]
      left
      simp

/-- C6 witness: in the two-image scenario with the capability failing for
the second item only, the run completes, the final batch is the pointwise
outcome, and item `b` carries the non-empty failure message. -/
theorem run_isolates_failures_witness :
    (handleGenerateEdits failSecondCap twoImageState).1.isProcessing = false ∧
    (handleGenerateEdits failSecondCap twoImageState).1.images =
      twoImageState.images.map (runOutcome failSecondCap twoImageState.selectedImageIds) ∧
    (runOutcome failSecondCap twoImageState.selectedImageIds imgB).error =
      some (errMsg "Service rejected the image.") :=
  ⟨(run_isolates_failures failSecondCap twoImageState (by decide) (by decide) rfl).1,
   (run_isolates_failures failSecondCap twoImageState (by decide) (by decide) rfl).2.1,
   (((run_isolates_failures failSecondCap twoImageState (by decide) (by decide) rfl).2.2
      imgB (by decide) (by decide)).1 "Service rejected the image." rfl).1⟩

/-- C7: a run mutates only the selection.  At the start of the run the
batch is the pointwise marking in which each selected item is set loading
with result and error cleared (id kept) and each unselected item is kept;
the final batch is the pointwise outcome; and an unselected item is
untouched by the final outcome and by every intermediate loop state (the
loop only ever processes selected snapshot items). -/
theorem run_touches_only_selection (cap : ImageState → Except String String)
    (st : EditorState)
    (hnd : (st.images.map (fun img => img.id)).Nodup)
    (hne : (st.images.filter fun img => st.selectedImageIds.contains img.id) ≠ [])
    (hproc : st.isProcessing = false) :
    ((startOfRun st
        (st.images.filter fun img => st.selectedImageIds.contains img.id).length).images
      = st.images.map fun img =>
          if st.selectedImageIds.contains img.id then clearForRun img else img) ∧
    (∀ img : ImageState, (clearForRun img).isLoading = true ∧
        (clearForRun img).editedUrl = none ∧ (clearForRun img).error = none ∧
        (clearForRun img).id = img.id) ∧
    ((handleGenerateEdits cap st).1.images =
        st.images.map (runOutcome cap st.selectedImageIds)) ∧
    (∀ img ∈ st.images, st.selectedImageIds.contains img.id = false →
        runOutcome cap st.selectedImageIds img = img ∧
        ∀ todo : List ImageState,
          (∀ j ∈ todo, st.selectedImageIds.contains j.id = true) →
          applyTodo cap todo img = img) := by
  refine ⟨rfl, fun img => ⟨rfl, rfl, rfl, rfl⟩,
    handleGenerateEdits_images cap st hnd hne hproc, ?_⟩
  intro img _ hnsel
  constructor
  · rw [runOutcome, if_neg (by rw [hnsel]; decide)]
  · intro todo htodo
    apply applyTodo_not_mem
    intro hidmem
    obtain ⟨j, hj, hjid⟩ := List.mem_map.mp hidmem
    have := htodo j hj
    rw [hjid, hnsel] at this
    exact absurd this (by decide)

/-- C7 witness: with three images and one selected, the final batch is the
pointwise outcome and the unselected item `b` is returned unchanged. -/
theorem run_touches_only_selection_witness :
    (handleGenerateEdits alwaysOkCap threeImageState).1.images =
      threeImageState.images.map (runOutcome alwaysOkCap threeImageState.selectedImageIds) ∧
    runOutcome alwaysOkCap threeImageState.selectedImageIds imgB = imgB :=
  ⟨(run_touches_only_selection alwaysOkCap threeImageState (by decide) (by decide) rfl).2.2.1,
   ((run_touches_only_selection alwaysOkCap threeImageState (by decide) (by decide) rfl).2.2.2
      imgB (by decide) (by decide)).1⟩

/-- The full list of progress values a genuine run publishes: `{0,n}` at
the start, then `{i+1,n}` after the `i`-th item, for `n` selected items. -/
lemma run_trace (cap : ImageState → Except String String) (st : EditorState)
    (hne : (st.images.filter fun img => st.selectedImageIds.contains img.id) ≠ [])
    (hproc : st.isProcessing = false) :
    (handleGenerateEdits cap st).2 =
      (List.range
          ((st.images.filter fun img => st.selectedImageIds.contains img.id).length + 1)).map
        (fun k =>
          { current := k,
            total := (st.images.filter fun img => st.selectedImageIds.contains img.id).length }) := by
  simp only [handleGenerateEdits]
  rw [if_neg (run_guard_false st hne hproc)]
  dsimp only
  rw [processLoop_trace, List.range_eq_range', List.range'_succ, List.map_cons]
  rfl

/-- C8: across a single run the published progress values are exactly
`{0,n}, {1,n}, ..., {n,n}`: one initial publish and then one per item
settling, so `current` increases by exactly one per completed item, never
decreases, never exceeds `total`, and equals `total` exactly once — in the
final published value. -/
theorem progress_monotone_reaches_total (cap : ImageState → Except String String)
    (st : EditorState)
    (hne : (st.images.filter fun img => st.selectedImageIds.contains img.id) ≠ [])
    (hproc : st.isProcessing = false) :
    (handleGenerateEdits cap st).2 =
      (List.range
          ((st.images.filter fun img => st.selectedImageIds.contains img.id).length + 1)).map
        (fun k =>
          { current := k,
            total := (st.images.filter fun img => st.selectedImageIds.contains img.id).length }) ∧
    (handleGenerateEdits cap st).2.length =
      (st.images.filter fun img => st.selectedImageIds.contains img.id).length + 1 ∧
    List.Chain' (fun p q => q.current = p.current + 1 ∧ q.total = p.total)
      (handleGenerateEdits cap st).2 ∧
    List.Chain' (fun p q => p.current ≤ q.current) (handleGenerateEdits cap st).2 ∧
    (∀ p ∈ (handleGenerateEdits cap st).2, p.current ≤ p.total) ∧
    ((handleGenerateEdits cap st).2.filter fun p => p.current == p.total).length = 1 ∧
    (handleGenerateEdits cap st).2.getLast? =
      some { current := (st.images.filter fun img => st.selectedImageIds.contains img.id).length,
             total := (st.images.filter fun img => st.selectedImageIds.contains img.id).length } := by
  have htr := run_trace cap st hne hproc
  refine ⟨htr, ?_, ?_, ?_, ?_, ?_, ?_⟩
  · rw [htr]
    simp
  · rw [htr]
    exact (List.chain'_map _).mpr ((List.chain'_range_succ _ _).mpr fun m _ => ⟨rfl, rfl⟩)
  · rw [htr]
    exact (List.chain'_map _).mpr
      ((List.chain'_range_succ _ _).mpr fun m _ => Nat.le_succ m)
  · rw [htr]
    intro p hp
    obtain ⟨k, hk, hkp⟩ := List.mem_map.mp hp
    rw [← hkp]
    exact Nat.lt_succ_iff.mp (List.mem_range.mp hk)
  · rw [htr]
    generalize (st.images.filter fun img => st.selectedImageIds.contains img.id).length = n
    rw [List.range_succ, List.map_append, List.filter_append]
    have h1 : (((List.range n).map fun k => ({ current := k, total := n } : Progress)).filter
        fun p => p.current == p.total) = [] := by
      apply List.filter_eq_nil_iff.mpr
      intro a ha
      obtain ⟨k, hk, hka⟩ := List.mem_map.mp ha
      rw [← hka]
      simp only [beq_iff_eq]
      exact Nat.ne_of_lt (List.mem_range.mp hk)
    rw [h1]
    simp
  · rw [htr]
    generalize (st.images.filter fun img => st.selectedImageIds.contains img.id).length = n
    rw [List.range_succ, List.map_append, List.map_cons, List.map_nil]
    exact List.getLast?_concat _

/-- C8 witness: in the two-image run the published progress values are
exactly `{0,2}, {1,2}, {2,2}`. -/
theorem progress_monotone_reaches_total_witness :
    (handleGenerateEdits failSecondCap twoImageState).2 =
      [ { current := 0, total := 2 }, { current := 1, total := 2 },
        { current := 2, total := 2 } ] :=
  ((progress_monotone_reaches_total failSecondCap twoImageState
      (by decide) rfl).1).trans (by decide)

lemma compProcessLoop_images (cap : CompImage → Except String String)
    (todo : List CompImage) (i : Nat) (st : CompressorState) :
    (compProcessLoop cap todo i st).images = st.images.map (compApplyTodo cap todo) := by
  induction todo generalizing i st with
  | nil =>
    rw [compProcessLoop]
    exact ((List.map_congr_left fun a _ => rfl).trans (List.map_id st.images)).symm
  | cons image rest ih =>
    simp only [compProcessLoop]
    rw [ih]
    unfold compRunStep
    rw [List.map_map]
    exact List.map_congr_left fun a _ => rfl

lemma compApplyResult_attempted (img : CompImage) (r : Except String String) :
    attempted (compApplyResult img r) = true := by
  cases r <;> simp [compApplyResult, attempted]

lemma compApplyTodo_attempted_pres (cap : CompImage → Except String String)
    (todo : List CompImage) (img : CompImage) (h : attempted img = true) :
    attempted (compApplyTodo cap todo img) = true := by
  induction todo generalizing img with
  | nil => exact h
  | cons image rest ih =>
    rw [compApplyTodo]
    by_cases hid : img.id = image.id
    · rw [if_pos hid]
      exact ih _ (compApplyResult_attempted img (cap image))
    · rw [if_neg hid]
      exact ih _ h

/-- An item whose id occurs in the snapshot comes out of the loop
attempted. -/
lemma compApplyTodo_attempted_of_mem (cap : CompImage → Except String String)
    (todo : List CompImage) (img : CompImage)
    (h : img.id ∈ todo.map (fun j => j.id)) :
    attempted (compApplyTodo cap todo img) = true := by
  induction todo generalizing img with
  | nil => cases h
  | cons image rest ih =>
    rw [compApplyTodo]
    by_cases hid : img.id = image.id
    · rw [if_pos hid]
      exact compApplyTodo_attempted_pres cap rest _
        (compApplyResult_attempted img (cap image))
    · rw [if_neg hid]
      simp only [List.map_cons, List.mem_cons] at h
      rcases h with h' | h'
      · exact absurd h' hid
      · exact ih _ h'

/-- After a genuine compressor run, every item of the batch has been
attempted. -/
lemma handleCompress_all_attempted (cap : CompImage → Except String String)
    (st : CompressorState) (hne : st.images ≠ []) (hproc : st.isProcessing = false) :
    ∀ img ∈ (handleCompress cap st).images, attempted img = true := by
  have hcond : ¬(st.images.length = 0 ∨ st.isProcessing = true) := by
    rw [List.length_eq_zero, hproc]
    rintro (h | h)
    · exact hne h
    · exact absurd h (by decide)
  simp only [handleCompress]
  rw [if_neg hcond]
  dsimp only
  rw [compProcessLoop_images, List.map_map]
  intro img hmem
  obtain ⟨orig, horig, hco⟩ := List.mem_map.mp hmem
  rw [← hco]
  exact compApplyTodo_attempted_of_mem cap st.images _
    (List.mem_map.mpr ⟨orig, horig, rfl⟩)

/-- An attempted head makes the auto-compress guard false. -/
lemma hasUnprocessed_false_of_attempted (img : CompImage) (rest : List CompImage)
    (h : attempted img = true) :
    hasUnprocessedImages (img :: rest) = false := by
  unfold attempted at h
  simp only [hasUnprocessedImages]
  rcases hurl : img.compressedUrl with _ | u
  · rcases herr : img.error with _ | m
    · rw [hurl, herr] at h
      exact absurd h (by decide)
    · simp [herr]
  · simp [hurl]

/-- In every reachable compressor state, when the auto-compress guard sees
an unattempted batch head, the whole batch is in fact freshly loaded:
no item is loading, succeeded or failed. -/
lemma reachable_fresh_invariant (st : CompressorState) (hr : CompReachable st) :
    hasUnprocessedImages st.images = true →
    ∀ img ∈ st.images,
      img.isLoading = false ∧ img.compressedUrl = none ∧ img.error = none := by
  induction hr with
  | init =>
    intro h
    exact absurd h (by decide)
  | load files hst ih =>
    intro _ img hmem
    obtain ⟨f, _, hfi⟩ := List.mem_map.mp hmem
    rw [← hfi]
    exact ⟨rfl, rfl, rfl⟩
  | reset hst ih =>
    intro h
    simp only [compReset] at h
    exact absurd h (by decide)
  | toggleAuto hst ih =>
    exact ih
  | compress cap hst ih =>
    rename_i st₀
    intro h
    by_cases hguard : (st₀.images.length = 0 ∨ st₀.isProcessing = true)
    · have heq : handleCompress cap st₀ = st₀ := by
        simp only [handleCompress]
        rw [if_pos hguard]
      rw [heq] at h ⊢
      exact ih h
    · rcases not_or.mp hguard with ⟨h1, h2⟩
      have hne : st₀.images ≠ [] := fun hnil => h1 (by rw [hnil]; rfl)
      have hproc : st₀.isProcessing = false := by
        cases hb : st₀.isProcessing
        · rfl
        · exact absurd hb h2
      rcases hres : (handleCompress cap st₀).images with _ | ⟨hd, tl⟩
      · rw [hres] at h
        exact absurd h (by decide)
      · have hatt := handleCompress_all_attempted cap st₀ hne hproc hd
          (by rw [hres]; exact List.mem_cons_self hd tl)
        rw [hres, hasUnprocessed_false_of_attempted hd tl hatt] at h
        exact absurd h (by decide)

/-- Any `handleCompress` call leaves the auto-compress guard false: a no-op
call keeps it false, and a genuine run leaves every item attempted. -/
lemma handleCompress_kills_trigger (cap : CompImage → Except String String)
    (st : CompressorState) :
    autoCompressFires (handleCompress cap st) = false := by
  by_cases hguard : (st.images.length = 0 ∨ st.isProcessing = true)
  · have heq : handleCompress cap st = st := by
      simp only [handleCompress]
      rw [if_pos hguard]
    rw [heq]
    rcases hguard with h | h
    · have hnil : st.images = [] := List.length_eq_zero.mp h
      unfold autoCompressFires
      rw [hnil]
      simp [hasUnprocessedImages]
    · unfold autoCompressFires
      rw [h]
      simp
  · rcases not_or.mp hguard with ⟨h1, h2⟩
    have hne : st.images ≠ [] := fun hnil => h1 (by rw [hnil]; rfl)
    have hproc : st.isProcessing = false := by
      cases hb : st.isProcessing
      · rfl
      · exact absurd hb h2
    rcases hres : (handleCompress cap st).images with _ | ⟨hd, tl⟩
    · unfold autoCompressFires
      rw [hres]
      simp [hasUnprocessedImages]
    · have hatt := handleCompress_all_attempted cap st hne hproc hd
        (by rw [hres]; exact List.mem_cons_self hd tl)
      unfold autoCompressFires
      rw [hres, hasUnprocessed_false_of_attempted hd tl hatt]
      simp

/-- C9: in every reachable CompressorView state, the auto-compress trigger
fires only when auto-run is on, no run is active, and nothing in the batch
has yet been attempted; and after any invocation of the run the trigger is
off again, so it fires at most once per batch-load event and never during
a run. -/
theorem auto_trigger_fires_once (st : CompressorState) (hr : CompReachable st) :
    (autoCompressFires st = true →
      st.autoCompress = true ∧ st.isProcessing = false ∧
      ∀ img ∈ st.images,
        img.isLoading = false ∧ img.compressedUrl = none ∧ img.error = none) ∧
    ∀ cap : CompImage → Except String String,
      autoCompressFires (handleCompress cap st) = false := by
  constructor
  · intro hf
    unfold autoCompressFires at hf
    rw [Bool.and_eq_true, Bool.and_eq_true] at hf
    obtain ⟨⟨h1, h2⟩, h3⟩ := hf
    refine ⟨h1, ?_, reachable_fresh_invariant st hr h3⟩
    cases hb : st.isProcessing
    · rfl
    · rw [hb] at h2
      exact absurd h2 (by decide)
  · intro cap
    exact handleCompress_kills_trigger cap st

/-- C9 witness: the freshly loaded batch fires the trigger; the theorem
applied to this reachable state shows the run is not active at that point
and that after running the compressor once the trigger no longer fires. -/
theorem auto_trigger_fires_once_witness :
    autoCompressFires compLoadedState = true ∧
    compLoadedState.isProcessing = false ∧
    autoCompressFires (handleCompress compOkCap compLoadedState) = false :=
  ⟨by decide,
   ((auto_trigger_fires_once compLoadedState
      (CompReachable.load [("x", "blob:x")]
        (CompReachable.toggleAuto CompReachable.init))).1 (by decide)).2.1,
   (auto_trigger_fires_once compLoadedState
      (CompReachable.load [("x", "blob:x")]
        (CompReachable.toggleAuto CompReachable.init))).2 compOkCap⟩

/-- C4: a watermark text or text-overlay content that trims to the empty
string removes its stage from the compiled sequence, whatever the other
fields — in particular even when the stage's enabled flag is true. -/
theorem whitespace_disables_stage (s : Settings) :
    (trimString s.watermarkConfig.text = "" → Stage.watermark ∉ editStages s) ∧
    (trimString s.textOverlayConfig.content = "" → Stage.textOverlay ∉ editStages s) := by
  constructor
  · intro h
    rw [editStages_eq]
    rw [if_neg (show ¬(s.watermarkConfig.enabled = true ∧ trimString s.watermarkConfig.text ≠ "")
      from fun hc => hc.2 h)]
    split_ifs <;> decide
  · intro h
    rw [editStages_eq]
    rw [if_neg (show ¬(s.textOverlayConfig.enabled = true ∧
        trimString s.textOverlayConfig.content ≠ "") from fun hc => hc.2 h)]
    split_ifs <;> decide

/-- C4 witness: with both stages enabled and whitespace-only content,
neither the watermark stage nor the text-overlay stage is compiled. -/
theorem whitespace_disables_stage_witness :
    whitespaceTextSettings.watermarkConfig.enabled = true ∧
    whitespaceTextSettings.textOverlayConfig.enabled = true ∧
    Stage.watermark ∉ editStages whitespaceTextSettings ∧
    Stage.textOverlay ∉ editStages whitespaceTextSettings :=
  ⟨rfl, rfl,
   (whitespace_disables_stage whitespaceTextSettings).1 (by decide),
   (whitespace_disables_stage whitespaceTextSettings).2 (by decide)⟩
